import Mathlib

/-!
Verification development for this repository.

The repository is a collection of VTK example programs plus documentation of a
scene-manifest format (the Frog MHD / Frog VTK format notes under
`src/src/Documentation`).  The manifest loader contract is described in the
specification only; no executable loader exists under `src/`, so the loader
below is modelled from the specification text.  The example program
`src/src/Cxx/Utilities/OffScreenRendering.cxx` is embedded at the end of the
file as an explicit trace of toolkit calls.
-/

namespace Manifest

/-- Modelled from the spec: the structured nested key-value document format
accepted by the loader (spec §6; a JSON/YAML encoding is a faithful
realization).  Float literals are represented as rationals; the loader never
performs floating-point arithmetic, it only classifies and compares literals. -/
inductive Doc where
  | str (s : String)
  | int (n : Int)
  | float (q : ℚ)
  | bool (b : Bool)
  | list (items : List Doc)
  | map (entries : List (String × Doc))

/-- Modelled from the spec: the closed set of declared parameter types
(spec §3: integer, float, text, boolean). -/
inductive PType where
  | tInt
  | tFloat
  | tText
  | tBool
deriving DecidableEq

/-- Modelled from the spec: a scalar parameter value. -/
inductive PValue where
  | pInt (n : Int)
  | pFloat (q : ℚ)
  | pStr (s : String)
  | pBool (b : Bool)
deriving DecidableEq

/-- Modelled from the spec: the error taxonomy of the loader (spec §7). -/
inductive ParseError where
  | MissingRequiredField (field : String)
  | UnknownTissueReference (name : String)
  | TypeMismatch (param : String)
  | DuplicateIndex (idx : Int)
  | MissingParameterValue (param : String)
  | MalformedDocument
deriving DecidableEq

/-- Modelled from the spec: a tissue (spec §3): name, optional integer index,
optional color and orientation (kept as raw document values), optional opacity. -/
structure Tissue where
  name : String
  index : Option Int
  color : Option Doc
  orientation : Option Doc
  opacity : Option ℚ

/-- Modelled from the spec: the in-memory scene manifest (spec §3/§4.1),
including the schema sections and the resolved per-tissue parameter tables. -/
structure SceneManifest where
  title : String
  files : List String
  tissues : List Tissue
  figures : List (String × List String)
  paramTypes : List (String × PType)
  defaults : List (String × PValue)
  overrides : List (String × List (String × PValue))
  resolved : List (String × List (String × PValue))

/-- The type of a parameter literal. -/
def typeOf : PValue → PType
  | .pInt _ => .tInt
  | .pFloat _ => .tFloat
  | .pStr _ => .tText
  | .pBool _ => .tBool

/-- Document encoding of a parameter value. -/
def pvalDoc : PValue → Doc
  | .pInt n => .int n
  | .pFloat q => .float q
  | .pStr s => .str s
  | .pBool b => .bool b

/-- Classify a document leaf as a parameter value. -/
def pvalOf : Doc → Option PValue
  | .int n => some (.pInt n)
  | .float q => some (.pFloat q)
  | .str s => some (.pStr s)
  | .bool b => some (.pBool b)
  | _ => none

/-- Name of a declared type as written in the document. -/
def typeNameOf : PType → String
  | .tInt => "integer"
  | .tFloat => "float"
  | .tText => "text"
  | .tBool => "boolean"

/-- Parse a declared-type name. -/
def ptypeOfName (s : String) : Option PType :=
  if s = "integer" then some .tInt
  else if s = "float" then some .tFloat
  else if s = "text" then some .tText
  else if s = "boolean" then some .tBool
  else none

/-- Numeric reading of a document leaf (integers embed into rationals). -/
def asNum : Doc → Option ℚ
  | .int n => some (n : ℚ)
  | .float q => some q
  | _ => none

/-- Read a list of strings. -/
def strList : List Doc → Except ParseError (List String)
  | [] => .ok []
  | .str s :: rest =>
    match strList rest with
    | .ok l => .ok (s :: l)
    | .error e => .error e
  | _ :: _ => .error .MalformedDocument

/-- Read a string leaf. -/
def asStr : Doc → Except ParseError String
  | .str s => .ok s
  | _ => .error .MalformedDocument

/-- Read a list-of-strings document. -/
def asStrList : Doc → Except ParseError (List String)
  | .list l => strList l
  | _ => .error .MalformedDocument

/-- Read a map from names to integers. -/
def intEntries : List (String × Doc) → Except ParseError (List (String × Int))
  | [] => .ok []
  | (k, .int n) :: rest =>
    match intEntries rest with
    | .ok l => .ok ((k, n) :: l)
    | .error e => .error e
  | _ :: _ => .error .MalformedDocument

/-- Read a map from names to numbers. -/
def numEntries : List (String × Doc) → Except ParseError (List (String × ℚ))
  | [] => .ok []
  | (k, v) :: rest =>
    match asNum v with
    | some q =>
      match numEntries rest with
      | .ok l => .ok ((k, q) :: l)
      | .error e => .error e
    | none => .error .MalformedDocument

/-- Read a map from names to declared types. -/
def ptypeEntries : List (String × Doc) → Except ParseError (List (String × PType))
  | [] => .ok []
  | (k, .str s) :: rest =>
    match ptypeOfName s with
    | some ty =>
      match ptypeEntries rest with
      | .ok l => .ok ((k, ty) :: l)
      | .error e => .error e
    | none => .error .MalformedDocument
  | _ :: _ => .error .MalformedDocument

/-- Read a map from names to parameter values. -/
def psetEntries : List (String × Doc) → Except ParseError (List (String × PValue))
  | [] => .ok []
  | (k, v) :: rest =>
    match pvalOf v with
    | some pv =>
      match psetEntries rest with
      | .ok l => .ok ((k, pv) :: l)
      | .error e => .error e
    | none => .error .MalformedDocument

/-- Read a parameter set (a map document of scalar values). -/
def parsePSet : Doc → Except ParseError (List (String × PValue))
  | .map kv => psetEntries kv
  | _ => .error .MalformedDocument

/-- Read an optional name-to-integer map. -/
def intMapOpt : Option Doc → Except ParseError (List (String × Int))
  | none => .ok []
  | some (.map kv) => intEntries kv
  | some _ => .error .MalformedDocument

/-- Read an optional name-to-number map. -/
def numMapOpt : Option Doc → Except ParseError (List (String × ℚ))
  | none => .ok []
  | some (.map kv) => numEntries kv
  | some _ => .error .MalformedDocument

/-- Read an optional map whose values are kept as raw documents
(used for colors and orientation, which the loader does not interpret). -/
def docMapOpt : Option Doc → Except ParseError (List (String × Doc))
  | none => .ok []
  | some (.map kv) => .ok kv
  | some _ => .error .MalformedDocument

/-- Modelled from the spec: the declared tissue names (spec §9): the `names`
list when present (VTK variant), otherwise the keys of the `colors` map
(MHD variant), otherwise empty. -/
def tissueNames (tkv : List (String × Doc)) : Except ParseError (List String) :=
  match List.lookup "names" tkv with
  | some v => asStrList v
  | none =>
    match List.lookup "colors" tkv with
    | some (.map ckv) => .ok (ckv.map Prod.fst)
    | some _ => .error .MalformedDocument
    | none => .ok []

/-- Modelled from the spec: structural parsing of the `tissues` section
(spec §4.1).  Each declared name yields one tissue whose optional attributes
are looked up in the per-attribute maps. -/
def parseTissuesRaw (od : Option Doc) : Except ParseError (List Tissue) :=
  match od with
  | none => .ok []
  | some (.map tkv) =>
    match tissueNames tkv with
    | .error e => .error e
    | .ok names =>
      match intMapOpt (List.lookup "indices" tkv) with
      | .error e => .error e
      | .ok idx =>
        match docMapOpt (List.lookup "colors" tkv) with
        | .error e => .error e
        | .ok cols =>
          match docMapOpt (List.lookup "orientation" tkv) with
          | .error e => .error e
          | .ok ors =>
            match numMapOpt (List.lookup "opacity" tkv) with
            | .error e => .error e
            | .ok ops =>
              .ok (names.map (fun n =>
                ⟨n, List.lookup n idx, List.lookup n cols,
                 List.lookup n ors, List.lookup n ops⟩))
  | some _ => .error .MalformedDocument

/-- First duplicated element of a list of indices, if any. -/
def findDup : List Int → Option Int
  | [] => none
  | x :: xs => if xs.contains x then some x else findDup xs

/-- Modelled from the spec: every present opacity lies in the closed
interval from 0 to 1 (spec §3 invariant).  The comparison is done on the
numerator and denominator so that it evaluates by kernel reduction. -/
def checkOpacity (ts : List Tissue) : Bool :=
  ts.all (fun t =>
    match t.opacity with
    | some q => decide (0 ≤ q.num) && decide (q.num ≤ (q.den : Int))
    | none => true)

/-- Result of the header phase of the loader: title, files, tissues. -/
structure ManifestHeader where
  title : String
  files : List String
  tissues : List Tissue

/-- Modelled from the spec: the header phase of `load` (spec §4.1).  The
document must be a map; `title` and `files` are required
(`MissingRequiredField`); the `tissues` section is parsed, duplicate tissue
indices are rejected (`DuplicateIndex`), and opacities must lie in the unit
interval. -/
def loadPhase1 (d : Doc) : Except ParseError ManifestHeader :=
  match d with
  | .map kvs =>
    match List.lookup "title" kvs, List.lookup "files" kvs with
    | none, _ => .error (.MissingRequiredField "title")
    | some _, none => .error (.MissingRequiredField "files")
    | some td, some fd =>
      match asStr td with
      | .error e => .error e
      | .ok title =>
        match asStrList fd with
        | .error e => .error e
        | .ok files =>
          match parseTissuesRaw (List.lookup "tissues" kvs) with
          | .error e => .error e
          | .ok ts =>
            match findDup (ts.filterMap Tissue.index) with
            | some n => .error (.DuplicateIndex n)
            | none =>
              if checkOpacity ts then .ok ⟨title, files, ts⟩
              else .error .MalformedDocument
  | _ => .error .MalformedDocument

/-- Modelled from the spec: parsing of the entries of the `figures` section;
every referenced tissue name must be declared (`UnknownTissueReference`,
spec §4.1). -/
def figEntries (names : List String) :
    List (String × Doc) → Except ParseError (List (String × List String))
  | [] => .ok []
  | (g, v) :: rest =>
    match asStrList v with
    | .error e => .error e
    | .ok ts =>
      match ts.find? (fun n => !(names.contains n)) with
      | some n => .error (.UnknownTissueReference n)
      | none =>
        match figEntries names rest with
        | .ok l => .ok ((g, ts) :: l)
        | .error e => .error e

/-- Modelled from the spec: the `figures` section (optional; each entry is a
named list of declared tissue names). -/
def parseFigures (od : Option Doc) (names : List String) :
    Except ParseError (List (String × List String)) :=
  match od with
  | none => .ok []
  | some (.map kv) => figEntries names kv
  | some _ => .error .MalformedDocument

/-- First parameter of a set whose value does not type-check against the
declared parameter types, if any (undeclared parameters are ignored). -/
def typeOffender (pt : List (String × PType)) :
    List (String × PValue) → Option String
  | [] => none
  | (p, v) :: rest =>
    match List.lookup p pt with
    | some ty => if typeOf v = ty then typeOffender pt rest else some p
    | none => typeOffender pt rest

/-- Read the optional `parameter_types` map. -/
def ptypesOpt : Option Doc → Except ParseError (List (String × PType))
  | none => .ok []
  | some (.map kv) => ptypeEntries kv
  | some _ => .error .MalformedDocument

/-- Read the optional `default` parameter set. -/
def defaultsOpt : Option Doc → Except ParseError (List (String × PValue))
  | none => .ok []
  | some dd => parsePSet dd

/-- Modelled from the spec: the per-tissue override entries of the
`tissue_parameters` section.  Each key must be a declared tissue name
(`UnknownTissueReference`) and each value must type-check against the
declared parameter types (`TypeMismatch`, spec §4.1). -/
def ovEntries (names : List String) (pt : List (String × PType)) :
    List (String × Doc) → Except ParseError (List (String × List (String × PValue)))
  | [] => .ok []
  | (k, v) :: rest =>
    if names.contains k then
      match parsePSet v with
      | .error e => .error e
      | .ok s =>
        match typeOffender pt s with
        | some p => .error (.TypeMismatch p)
        | none =>
          match ovEntries names pt rest with
          | .ok l => .ok ((k, s) :: l)
          | .error e => .error e
    else .error (.UnknownTissueReference k)

/-- Modelled from the spec: the `tissue_parameters` section (spec §4.1): the
nested `parameter_types` and `default` entries, then one override set per
tissue-name key.  Default values are also checked against the declared types. -/
def parseParams (od : Option Doc) (names : List String) :
    Except ParseError
      (List (String × PType) × List (String × PValue) ×
       List (String × List (String × PValue))) :=
  match od with
  | none => .ok ([], [], [])
  | some (.map kv) =>
    match ptypesOpt (List.lookup "parameter_types" kv) with
    | .error e => .error e
    | .ok pt =>
      match defaultsOpt (List.lookup "default" kv) with
      | .error e => .error e
      | .ok df =>
        match typeOffender pt df with
        | some p => .error (.TypeMismatch p)
        | none =>
          match ovEntries names pt
              (kv.filter (fun p => !(p.1 == "parameter_types") && !(p.1 == "default"))) with
          | .error e => .error e
          | .ok ov => .ok (pt, df, ov)
  | some _ => .error .MalformedDocument

/-- Modelled from the spec: the value resolved for parameter `p` of tissue
`n`: the tissue's override value when present, otherwise the `default` value
(spec §4.1). -/
def resolveValue (df : List (String × PValue))
    (ov : List (String × List (String × PValue))) (n p : String) : Option PValue :=
  match List.lookup n ov with
  | some s =>
    match List.lookup p s with
    | some v => some v
    | none => List.lookup p df
  | none => List.lookup p df

/-- Modelled from the spec: the resolved parameter table of one tissue: one
entry per declared parameter; a parameter absent from both the override and
the default set fails with `MissingParameterValue` (spec §4.1). -/
def resolveTable (df : List (String × PValue))
    (ov : List (String × List (String × PValue))) (n : String) :
    List (String × PType) → Except ParseError (List (String × PValue))
  | [] => .ok []
  | (p, _) :: rest =>
    match resolveValue df ov n p with
    | some v =>
      match resolveTable df ov n rest with
      | .ok l => .ok ((p, v) :: l)
      | .error e => .error e
    | none => .error (.MissingParameterValue p)

/-- Resolved tables for a list of tissue names. -/
def resolveTables (df : List (String × PValue))
    (ov : List (String × List (String × PValue))) (pt : List (String × PType)) :
    List String → Except ParseError (List (String × List (String × PValue)))
  | [] => .ok []
  | n :: rest =>
    match resolveTable df ov n pt with
    | .error e => .error e
    | .ok tbl =>
      match resolveTables df ov pt rest with
      | .ok l => .ok ((n, tbl) :: l)
      | .error e => .error e

/-- Modelled from the spec: the resolved per-tissue parameter tables
(override merged over default, spec §4.1).  With no declared parameters the
resolved table is empty. -/
def resolveAll (names : List String) (pt : List (String × PType))
    (df : List (String × PValue)) (ov : List (String × List (String × PValue))) :
    Except ParseError (List (String × List (String × PValue))) :=
  match pt with
  | [] => .ok []
  | _ :: _ => resolveTables df ov pt names

/-- Top-level key lookup in a map document. -/
def topLookup (d : Doc) (k : String) : Option Doc :=
  match d with
  | .map kvs => List.lookup k kvs
  | _ => none

/-- Modelled from the spec: the loader contract
`load(source) -> SceneManifest | ParseError` (spec §4.1): header phase, then
figures, then tissue parameters, then resolution; validation is
all-or-nothing. -/
def load (d : Doc) : Except ParseError SceneManifest :=
  match loadPhase1 d with
  | .error e => .error e
  | .ok h =>
    match parseFigures (topLookup d "figures") (h.tissues.map Tissue.name) with
    | .error e => .error e
    | .ok figs =>
      match parseParams (topLookup d "tissue_parameters") (h.tissues.map Tissue.name) with
      | .error e => .error e
      | .ok (pt, df, ov) =>
        match resolveAll (h.tissues.map Tissue.name) pt df ov with
        | .error e => .error e
        | .ok res => .ok ⟨h.title, h.files, h.tissues, figs, pt, df, ov, res⟩

/-- Serialized list of tissue names. -/
def namesEntry (ts : List Tissue) : Doc :=
  .list (ts.map (fun t => Doc.str t.name))

/-- Serialized index map: one entry per tissue that carries an index. -/
def indexEntries (ts : List Tissue) : List (String × Doc) :=
  ts.filterMap (fun t => t.index.map (fun x => (t.name, Doc.int x)))

/-- Serialized color map. -/
def colorEntries (ts : List Tissue) : List (String × Doc) :=
  ts.filterMap (fun t => t.color.map (fun x => (t.name, x)))

/-- Serialized orientation map. -/
def orientEntries (ts : List Tissue) : List (String × Doc) :=
  ts.filterMap (fun t => t.orientation.map (fun x => (t.name, x)))

/-- Serialized opacity map. -/
def opacityEntries (ts : List Tissue) : List (String × Doc) :=
  ts.filterMap (fun t => t.opacity.map (fun x => (t.name, Doc.float x)))

/-- Entries of the serialized `tissues` section. -/
def tissuesEntries (ts : List Tissue) : List (String × Doc) :=
  [("names", namesEntry ts), ("indices", .map (indexEntries ts)),
   ("colors", .map (colorEntries ts)), ("orientation", .map (orientEntries ts)),
   ("opacity", .map (opacityEntries ts))]

/-- Modelled from the spec: serialization of the `tissues` section.  All five
attribute maps are emitted; each map holds one entry per tissue that carries
the attribute. -/
def serializeTissues (ts : List Tissue) : Doc :=
  .map (tissuesEntries ts)

/-- Document encoding of a parameter set. -/
def psetDoc (s : List (String × PValue)) : Doc :=
  .map (s.map (fun p => (p.1, pvalDoc p.2)))

/-- Entries of the serialized `tissue_parameters` section. -/
def paramsEntries (m : SceneManifest) : List (String × Doc) :=
  [("parameter_types", .map (m.paramTypes.map (fun p => (p.1, Doc.str (typeNameOf p.2))))),
   ("default", psetDoc m.defaults)]
  ++ m.overrides.map (fun o => (o.1, psetDoc o.2))

/-- Modelled from the spec: serialization of the `tissue_parameters`
section. -/
def serializeParams (m : SceneManifest) : Doc :=
  .map (paramsEntries m)

/-- Entries of a serialized manifest.  The `tissue_parameters` section is
omitted when the whole schema is empty. -/
def serializeEntries (m : SceneManifest) : List (String × Doc) :=
  [("title", .str m.title),
   ("files", .list (m.files.map Doc.str)),
   ("tissues", serializeTissues m.tissues),
   ("figures", .map (m.figures.map (fun f => (f.1, Doc.list (f.2.map Doc.str)))))]
  ++ (if m.paramTypes = [] ∧ m.defaults = [] ∧ m.overrides = [] then []
      else [("tissue_parameters", serializeParams m)])

/-- Modelled from the spec: re-serialization of a `SceneManifest` into the
document format read by `load` (spec §8 round-trip property). -/
def serialize (m : SceneManifest) : Doc :=
  .map (serializeEntries m)

/-- Override value of parameter `p` for tissue `n`, when the tissue has an
override set containing `p`. -/
def ovLookup (ov : List (String × List (String × PValue))) (n p : String) :
    Option PValue :=
  match List.lookup n ov with
  | some s => List.lookup p s
  | none => none

/-- The data-model invariants of a validated manifest (spec §3): figure
groups and parameter overrides reference declared tissue names only, override
values type-check against the declared parameter types, opacities lie in the
unit interval, and present tissue indices are pairwise distinct. -/
def SatisfiesInvariants (m : SceneManifest) : Prop :=
  (∀ f ∈ m.figures, ∀ n ∈ f.2, n ∈ m.tissues.map Tissue.name) ∧
  (∀ o ∈ m.overrides, o.1 ∈ m.tissues.map Tissue.name) ∧
  (∀ o ∈ m.overrides, ∀ pv ∈ o.2, ∀ ty,
      List.lookup pv.1 m.paramTypes = some ty → typeOf pv.2 = ty) ∧
  (∀ t ∈ m.tissues, ∀ q, t.opacity = some q → 0 ≤ q ∧ q ≤ 1) ∧
  (m.tissues.filterMap Tissue.index).Nodup

/-- Structural properties that `load` guarantees about its output beyond the
data-model invariants: tissues with equal names are equal (each tissue is a
function of its name), the default set type-checks, override keys avoid the
two reserved section names, and the resolved tables are exactly the result of
resolution. -/
def LoadShape (m : SceneManifest) : Prop :=
  (∀ a ∈ m.tissues, ∀ b ∈ m.tissues, a.name = b.name → a = b) ∧
  typeOffender m.paramTypes m.defaults = none ∧
  (∀ o ∈ m.overrides, o.1 ≠ "parameter_types" ∧ o.1 ≠ "default") ∧
  resolveAll (m.tissues.map Tissue.name) m.paramTypes m.defaults m.overrides
    = .ok m.resolved

/-- The minimal manifest of spec §8: title, one file, one tissue with a
color, no figures and no tissue parameters. -/
def doc9 : Doc :=
  .map [("title", .str "t"),
        ("files", .list [.str "a.mhd"]),
        ("tissues", .map [("names", .list [.str "bone"]),
                          ("colors", .map [("bone", .list [.int 1, .int 1, .int 1])])])]

/-- A concrete document exercising tissues, indices, opacity, figures and
tissue parameters. -/
def doc8 : Doc :=
  .map [("title", .str "t"), ("files", .list [.str "f.mhd"]),
    ("tissues", .map [("names", .list [.str "a"]),
                      ("indices", .map [("a", .int 1)]),
                      ("opacity", .map [("a", .float (mkRat 1 2))])]),
    ("figures", .map [("f", .list [.str "a"])]),
    ("tissue_parameters", .map
      [("parameter_types", .map [("density", .str "float")]),
       ("default", .map [("density", .float 1)]),
       ("a", .map [("density", .float 2)])])]

/-- A document exercising both schema variants' fields: names, indices,
colors, orientation, opacity, figures, parameter types, defaults and a
per-tissue override. -/
def doc1 : Doc :=
  .map [("title", .str "frog"), ("files", .list [.str "a.vtk", .str "b.vtk"]),
    ("tissues", .map [("names", .list [.str "skin", .str "bone"]),
                      ("indices", .map [("skin", .int 1), ("bone", .int 2)]),
                      ("colors", .map [("skin", .list [.int 1, .int 0, .int 0])]),
                      ("orientation", .map [("bone", .str "sagittal")]),
                      ("opacity", .map [("skin", .float (mkRat 1 2))])]),
    ("figures", .map [("fig12-9b", .list [.str "skin", .str "bone"])]),
    ("tissue_parameters", .map
      [("parameter_types", .map [("density", .str "float"), ("visible", .str "boolean")]),
       ("default", .map [("density", .float 1), ("visible", .bool true)]),
       ("bone", .map [("density", .float 3)])])]

end Manifest

namespace OffScreen

/-- One toolkit call made by the `OffScreenRendering` example
(`src/src/Cxx/Utilities/OffScreenRendering.cxx`). -/
inductive VtkEvent where
  | setOffScreenOnlyMode (v : Int)
  | setUseMesaClasses (v : Int)
  | setMapperInput
  | setActorMapper
  | setOffScreenRendering (v : Int)
  | addRenderer
  | addActor
  | setBackground (r g b : Int)
  | render
  | w2iSetInput
  | w2iUpdate
  | writerSetFileName (path : String)
  | writerSetInputConnection
  | writerWrite
deriving DecidableEq

/-- Shallow embedding of `main` of
`src/src/Cxx/Utilities/OffScreenRendering.cxx`: the straight-line sequence of
toolkit calls it performs, paired with its return value (`EXIT_SUCCESS` is 0).
Its two parameters correspond to the unnamed `int, char*[]` parameters of the
C++ `main`. -/
def offScreenMain (_argc : Int) (_argv : List String) : List VtkEvent × Int :=
  ([.setOffScreenOnlyMode 1,
    .setUseMesaClasses 1,
    .setMapperInput,
    .setActorMapper,
    .setOffScreenRendering 1,
    .addRenderer,
    .addActor,
    .setBackground 1 1 1,
    .render,
    .w2iSetInput,
    .w2iUpdate,
    .writerSetFileName "screenshot.png",
    .writerSetInputConnection,
    .writerWrite], 0)

end OffScreen

namespace Manifest

lemma contains_true_iff_mem (l : List String) (a : String) :
    l.contains a = true ↔ a ∈ l := by
  simp

lemma findDup_eq_none_iff (l : List Int) : findDup l = none ↔ l.Nodup := by
  induction l with
  | nil => simp [findDup]
  | cons x xs ih =>
    rw [List.nodup_cons, ← ih]
    by_cases hx : x ∈ xs
    · have hc : xs.contains x = true := by simpa using hx
      simp [findDup, hc, hx]
    · have hc : xs.contains x = false := by simpa using hx
      simp [findDup, hc, hx]

lemma not_nodup_decomp (a b c : List Int) (x : Int) :
    ¬ (a ++ x :: (b ++ x :: c)).Nodup := by
  induction a with
  | nil =>
    intro h
    rcases List.nodup_cons.mp h with ⟨hx, _⟩
    exact hx (List.mem_append.mpr (Or.inr (List.mem_cons_self x c)))
  | cons y ys ih =>
    intro h
    exact ih (List.nodup_cons.mp h).2

lemma opacity_unit_iff (q : ℚ) :
    ((0 ≤ q.num ∧ q.num ≤ (q.den : Int)) ↔ (0 ≤ q ∧ q ≤ 1)) := by
  have h1 : 0 ≤ q.num ↔ 0 ≤ q := Rat.num_nonneg
  have h2 : q.num ≤ (q.den : Int) ↔ q ≤ 1 := by
    rw [Rat.le_def]
    simp
  rw [h1, h2]

lemma checkOpacity_iff (ts : List Tissue) :
    checkOpacity ts = true ↔ ∀ t ∈ ts, ∀ q, t.opacity = some q → 0 ≤ q ∧ q ≤ 1 := by
  unfold checkOpacity
  rw [List.all_eq_true]
  constructor
  · intro h t ht q hq
    have hh := h t ht
    rw [hq] at hh
    rw [← opacity_unit_iff q]
    simpa using hh
  · intro h t ht
    cases hq : t.opacity with
    | none => simp
    | some q =>
      have hh := (opacity_unit_iff q).mpr (h t ht q hq)
      simpa using hh

lemma typeOffender_eq_none_iff (pt : List (String × PType))
    (s : List (String × PValue)) :
    typeOffender pt s = none ↔
      ∀ pv ∈ s, ∀ ty, List.lookup pv.1 pt = some ty → typeOf pv.2 = ty := by
  induction s with
  | nil => simp [typeOffender]
  | cons hd tl ih =>
    obtain ⟨p, v⟩ := hd
    cases hlk : List.lookup p pt with
    | none =>
      simp only [typeOffender, hlk]
      rw [ih]
      constructor
      · intro h pv hpv ty hty
        rcases List.mem_cons.mp hpv with rfl | hm
        · rw [hlk] at hty
          cases hty
        · exact h pv hm ty hty
      · intro h pv hpv ty hty
        exact h pv (List.mem_cons_of_mem _ hpv) ty hty
    | some ty0 =>
      by_cases he : typeOf v = ty0
      · simp only [typeOffender, hlk, if_pos he]
        rw [ih]
        constructor
        · intro h pv hpv ty hty
          rcases List.mem_cons.mp hpv with rfl | hm
          · rw [hlk] at hty
            injection hty with h2
            rw [← h2]
            exact he
          · exact h pv hm ty hty
        · intro h pv hpv ty hty
          exact h pv (List.mem_cons_of_mem _ hpv) ty hty
      · simp only [typeOffender, hlk, if_neg he]
        constructor
        · intro h
          cases h
        · intro h
          exact absurd (h (p, v) (List.mem_cons_self _ _) ty0 hlk) he

lemma typeOffender_some_of_mismatch {pt : List (String × PType)}
    {s : List (String × PValue)} {pv : String × PValue} {ty : PType}
    (hm : pv ∈ s) (hlk : List.lookup pv.1 pt = some ty) (hne : typeOf pv.2 ≠ ty) :
    ∃ q, typeOffender pt s = some q := by
  cases h : typeOffender pt s with
  | some q => exact ⟨q, rfl⟩
  | none => exact absurd ((typeOffender_eq_none_iff pt s).mp h pv hm ty hlk) hne

/-- C6: a map document missing the top-level key `title` or the top-level key
`files` makes `load` fail with `MissingRequiredField`. -/
theorem c6_missing_required_field (kvs : List (String × Doc))
    (h : List.lookup "title" kvs = none ∨ List.lookup "files" kvs = none) :
    ∃ k, load (.map kvs) = .error (.MissingRequiredField k) := by
  cases ht : List.lookup "title" kvs with
  | none => exact ⟨"title", by simp [load, loadPhase1, ht]⟩
  | some td =>
    have hf : List.lookup "files" kvs = none := by
      rcases h with h | h
      · rw [ht] at h
        cases h
      · exact h
    exact ⟨"files", by simp [load, loadPhase1, ht, hf]⟩

/-- C6 witness: a concrete document with `files` but no `title`. -/
theorem c6_missing_required_field_witness :
    ∃ k, load (.map [("files", .list [])]) = .error (.MissingRequiredField k) :=
  c6_missing_required_field [("files", .list [])] (Or.inl rfl)

lemma load_error_of_phase1 {d : Doc} {e : ParseError}
    (h : loadPhase1 d = .error e) : load d = .error e := by
  simp [load, h]

lemma figEntries_error_of_badref (names : List String) (kv : List (String × Doc))
    (hall : ∀ e ∈ kv, ∃ ts, asStrList e.2 = .ok ts)
    (hbad : ∃ e ∈ kv, ∃ ts, asStrList e.2 = .ok ts ∧
       ∃ n ∈ ts, names.contains n = false) :
    ∃ n, figEntries names kv = .error (.UnknownTissueReference n) := by
  induction kv with
  | nil =>
    rcases hbad with ⟨e, he, _⟩
    cases he
  | cons hd tl ih =>
    obtain ⟨g, v⟩ := hd
    obtain ⟨ts, hts⟩ := hall (g, v) (List.mem_cons_self _ _)
    cases hfind : ts.find? (fun n => !(names.contains n)) with
    | some n =>
      refine ⟨n, ?_⟩
      simp only [figEntries, hts, hfind]
    | none =>
      have hcont : ∀ n ∈ ts, names.contains n = true := by
        intro n hn
        have hh := List.find?_eq_none.mp hfind n hn
        simpa using hh
      have hbad2 : ∃ e ∈ tl, ∃ ts2, asStrList e.2 = .ok ts2 ∧
          ∃ n ∈ ts2, names.contains n = false := by
        rcases hbad with ⟨e, he, ts2, hts2, n, hn, hnc⟩
        rcases List.mem_cons.mp he with rfl | hm
        · rw [hts] at hts2
          injection hts2 with h2
          subst h2
          rw [hcont n hn] at hnc
          cases hnc
        · exact ⟨e, hm, ts2, hts2, n, hn, hnc⟩
      obtain ⟨n, hrec⟩ := ih (fun e he => hall e (List.mem_cons_of_mem _ he)) hbad2
      refine ⟨n, ?_⟩
      simp only [figEntries, hts, hfind, hrec]

/-- C3: once the header phase has succeeded, a structurally well-formed
`figures` section in which some group lists an undeclared tissue name makes
`load` fail with `UnknownTissueReference`. -/
theorem c3_unknown_tissue_reference (d : Doc) (h : ManifestHeader)
    (fkv : List (String × Doc))
    (hph : loadPhase1 d = .ok h)
    (htop : topLookup d "figures" = some (.map fkv))
    (hall : ∀ e ∈ fkv, ∃ ts, asStrList e.2 = .ok ts)
    (hbad : ∃ e ∈ fkv, ∃ ts, asStrList e.2 = .ok ts ∧
       ∃ n ∈ ts, (h.tissues.map Tissue.name).contains n = false) :
    ∃ n, load d = .error (.UnknownTissueReference n) := by
  obtain ⟨n, hfe⟩ := figEntries_error_of_badref _ _ hall hbad
  exact ⟨n, by simp [load, hph, parseFigures, htop, hfe]⟩

/-- C3 witness: one declared tissue `a`, one figure group referencing the
undeclared name `zzz`. -/
theorem c3_unknown_tissue_reference_witness :
    ∃ n, load (.map [("title", .str "t"), ("files", .list []),
      ("tissues", .map [("names", .list [.str "a"])]),
      ("figures", .map [("f", .list [.str "zzz"])])])
      = .error (.UnknownTissueReference n) := by
  refine c3_unknown_tissue_reference _
    ⟨"t", [], [⟨"a", none, none, none, none⟩]⟩
    [("f", .list [.str "zzz"])] rfl rfl ?_ ?_
  · intro e he
    rcases List.mem_cons.mp he with rfl | hm
    · exact ⟨["zzz"], rfl⟩
    · cases hm
  · exact ⟨("f", .list [.str "zzz"]), List.mem_cons_self _ _, ["zzz"], rfl,
      "zzz", List.mem_cons_self _ _, rfl⟩

/-- C5: once the header has parsed structurally (required fields present,
tissues section well formed), two tissues at distinct positions declaring the
same integer index make `load` fail with `DuplicateIndex`. -/
theorem c5_duplicate_index (d : Doc) (kvs : List (String × Doc))
    (td fd : Doc) (title : String) (files : List String) (ts l1 l2 l3 : List Tissue)
    (t1 t2 : Tissue) (i : Int)
    (hd : d = .map kvs)
    (ht : List.lookup "title" kvs = some td) (hstr : asStr td = .ok title)
    (hf : List.lookup "files" kvs = some fd) (hfl : asStrList fd = .ok files)
    (htis : parseTissuesRaw (List.lookup "tissues" kvs) = .ok ts)
    (hts : ts = l1 ++ t1 :: (l2 ++ t2 :: l3))
    (h1 : t1.index = some i) (h2 : t2.index = some i) :
    ∃ k, load d = .error (.DuplicateIndex k) := by
  have hno : ¬ (ts.filterMap Tissue.index).Nodup := by
    rw [hts, List.filterMap_append, List.filterMap_cons_some h1,
      List.filterMap_append, List.filterMap_cons_some h2]
    exact not_nodup_decomp _ _ _ i
  cases hfd : findDup (ts.filterMap Tissue.index) with
  | none => exact absurd ((findDup_eq_none_iff _).mp hfd) hno
  | some k =>
    refine ⟨k, load_error_of_phase1 ?_⟩
    rw [hd]
    simp only [loadPhase1, ht, hf, hstr, hfl, htis, hfd]

/-- C5 witness: two tissues `a` and `b` both declaring index 3. -/
theorem c5_duplicate_index_witness :
    ∃ k, load (.map [("title", .str "t"), ("files", .list []),
      ("tissues", .map [("names", .list [.str "a", .str "b"]),
                        ("indices", .map [("a", .int 3), ("b", .int 3)])])])
      = .error (.DuplicateIndex k) :=
  c5_duplicate_index _ _ _ _ "t" [] _ [] [] []
    ⟨"a", some 3, none, none, none⟩ ⟨"b", some 3, none, none, none⟩ 3
    rfl rfl rfl rfl rfl rfl rfl rfl rfl

lemma ovEntries_error_of_mismatch (names : List String)
    (pt : List (String × PType)) (kv : List (String × Doc))
    (hall : ∀ e ∈ kv, names.contains e.1 = true ∧ ∃ s, parsePSet e.2 = .ok s)
    (hbad : ∃ e ∈ kv, ∃ s, parsePSet e.2 = .ok s ∧
       ∃ pv ∈ s, ∃ ty, List.lookup pv.1 pt = some ty ∧ typeOf pv.2 ≠ ty) :
    ∃ q, ovEntries names pt kv = .error (.TypeMismatch q) := by
  induction kv with
  | nil =>
    rcases hbad with ⟨e, he, _⟩
    cases he
  | cons hd tl ih =>
    obtain ⟨k, v⟩ := hd
    obtain ⟨hc, s, hs⟩ := hall (k, v) (List.mem_cons_self _ _)
    cases hto : typeOffender pt s with
    | some p =>
      refine ⟨p, ?_⟩
      simp only [ovEntries, hc, if_true, hs, hto]
    | none =>
      have hok : ∀ pv ∈ s, ∀ ty, List.lookup pv.1 pt = some ty → typeOf pv.2 = ty :=
        (typeOffender_eq_none_iff pt s).mp hto
      have hbad2 : ∃ e ∈ tl, ∃ s2, parsePSet e.2 = .ok s2 ∧
          ∃ pv ∈ s2, ∃ ty, List.lookup pv.1 pt = some ty ∧ typeOf pv.2 ≠ ty := by
        rcases hbad with ⟨e, he, s2, hs2, pv, hpv, ty, hty, hne⟩
        rcases List.mem_cons.mp he with rfl | hm
        · rw [hs] at hs2
          injection hs2 with h2
          subst h2
          exact absurd (hok pv hpv ty hty) hne
        · exact ⟨e, hm, s2, hs2, pv, hpv, ty, hty, hne⟩
      obtain ⟨q, hrec⟩ := ih (fun e he => hall e (List.mem_cons_of_mem _ he)) hbad2
      refine ⟨q, ?_⟩
      simp only [ovEntries, hc, if_true, hs, hto, hrec]

/-- C4: once the header and figures phases have succeeded and the
`tissue_parameters` section is structurally well formed, a per-tissue
override whose literal value's type differs from the declared parameter type
makes `load` fail with `TypeMismatch`. -/
theorem c4_type_mismatch (d : Doc) (h : ManifestHeader)
    (figs : List (String × List String)) (kv : List (String × Doc))
    (pt : List (String × PType)) (df : List (String × PValue))
    (hph : loadPhase1 d = .ok h)
    (hfig : parseFigures (topLookup d "figures") (h.tissues.map Tissue.name) = .ok figs)
    (htop : topLookup d "tissue_parameters" = some (.map kv))
    (hpt : ptypesOpt (List.lookup "parameter_types" kv) = .ok pt)
    (hdf : defaultsOpt (List.lookup "default" kv) = .ok df)
    (hdfok : typeOffender pt df = none)
    (hall : ∀ e ∈ kv.filter (fun p => !(p.1 == "parameter_types") && !(p.1 == "default")),
       (h.tissues.map Tissue.name).contains e.1 = true ∧ ∃ s, parsePSet e.2 = .ok s)
    (hbad : ∃ e ∈ kv.filter (fun p => !(p.1 == "parameter_types") && !(p.1 == "default")),
       ∃ s, parsePSet e.2 = .ok s ∧
         ∃ pv ∈ s, ∃ ty, List.lookup pv.1 pt = some ty ∧ typeOf pv.2 ≠ ty) :
    ∃ q, load d = .error (.TypeMismatch q) := by
  obtain ⟨q, hov⟩ := ovEntries_error_of_mismatch _ _ _ hall hbad
  refine ⟨q, ?_⟩
  simp [load, hph, hfig, parseParams, htop, hpt, hdf, hdfok, hov]

/-- C4 witness: parameter `density` declared `float`, overridden for tissue
`a` with the integer literal 2. -/
theorem c4_type_mismatch_witness :
    ∃ q, load (.map [("title", .str "t"), ("files", .list []),
      ("tissues", .map [("names", .list [.str "a"])]),
      ("tissue_parameters", .map
        [("parameter_types", .map [("density", .str "float")]),
         ("default", .map []),
         ("a", .map [("density", .int 2)])])])
      = .error (.TypeMismatch q) := by
  refine c4_type_mismatch _ ⟨"t", [], [⟨"a", none, none, none, none⟩]⟩ []
    [("parameter_types", .map [("density", .str "float")]),
     ("default", .map []),
     ("a", .map [("density", .int 2)])]
    [("density", .tFloat)] [] rfl rfl rfl rfl rfl rfl ?_ ?_
  · intro e he
    have hfe : ([("parameter_types", Doc.map [("density", Doc.str "float")]),
        ("default", Doc.map []),
        ("a", Doc.map [("density", Doc.int 2)])].filter
          (fun p => !(p.1 == "parameter_types") && !(p.1 == "default")))
        = [("a", Doc.map [("density", Doc.int 2)])] := rfl
    rw [hfe] at he
    rcases List.mem_cons.mp he with rfl | hm
    · exact ⟨rfl, [("density", .pInt 2)], rfl⟩
    · cases hm
  · refine ⟨("a", .map [("density", .int 2)]), ?_, [("density", .pInt 2)], rfl,
      ("density", .pInt 2), List.mem_cons_self _ _, .tFloat, rfl, ?_⟩
    · have hfe : ([("parameter_types", Doc.map [("density", Doc.str "float")]),
          ("default", Doc.map []),
          ("a", Doc.map [("density", Doc.int 2)])].filter
            (fun p => !(p.1 == "parameter_types") && !(p.1 == "default")))
          = [("a", Doc.map [("density", Doc.int 2)])] := rfl
      rw [hfe]
      exact List.mem_cons_self _ _
    · intro hcontra
      cases hcontra

lemma parseTissuesRaw_sameName {od : Option Doc} {ts : List Tissue}
    (h : parseTissuesRaw od = .ok ts) :
    ∀ a ∈ ts, ∀ b ∈ ts, a.name = b.name → a = b := by
  unfold parseTissuesRaw at h
  split at h
  · injection h with h2
    subst h2
    intro a ha
    cases ha
  · split at h
    · cases h
    · split at h
      · cases h
      · split at h
        · cases h
        · split at h
          · cases h
          · split at h
            · cases h
            · injection h with h2
              subst h2
              intro a ha b hb heq
              rcases List.mem_map.mp ha with ⟨n, hn, rfl⟩
              rcases List.mem_map.mp hb with ⟨n2, hn2, rfl⟩
              have : n = n2 := heq
              subst this
              rfl
  · cases h

lemma loadPhase1_ok_inv {d : Doc} {h : ManifestHeader}
    (hph : loadPhase1 d = .ok h) :
    (∀ a ∈ h.tissues, ∀ b ∈ h.tissues, a.name = b.name → a = b) ∧
    findDup (h.tissues.filterMap Tissue.index) = none ∧
    checkOpacity h.tissues = true := by
  unfold loadPhase1 at hph
  split at hph
  · split at hph
    · cases hph
    · cases hph
    · split at hph
      · cases hph
      · split at hph
        · cases hph
        · split at hph
          · cases hph
          next ts hts =>
            split at hph
            · cases hph
            next hfd =>
              split at hph
              · injection hph with h2
                subst h2
                exact ⟨parseTissuesRaw_sameName hts, hfd, by assumption⟩
              · cases hph
  · cases hph

lemma figEntries_ok_refs {names : List String} {kv : List (String × Doc)}
    {l : List (String × List String)} (h : figEntries names kv = .ok l) :
    ∀ f ∈ l, ∀ n ∈ f.2, n ∈ names := by
  induction kv generalizing l with
  | nil =>
    injection h with h2
    subst h2
    intro f hf
    cases hf
  | cons hd tl ih =>
    obtain ⟨g, v⟩ := hd
    unfold figEntries at h
    split at h
    · cases h
    next ts hts =>
      split at h
      · cases h
      next hfind =>
        split at h
        next l2 hl2 =>
          injection h with h2
          subst h2
          intro f hf n hn
          rcases List.mem_cons.mp hf with rfl | hm
          · have hc := List.find?_eq_none.mp hfind n hn
            simpa using hc
          · exact ih hl2 f hm n hn
        · cases h

lemma parseFigures_ok_refs {od : Option Doc} {names : List String}
    {l : List (String × List String)} (h : parseFigures od names = .ok l) :
    ∀ f ∈ l, ∀ n ∈ f.2, n ∈ names := by
  unfold parseFigures at h
  split at h
  · injection h with h2
    subst h2
    intro f hf
    cases hf
  · exact figEntries_ok_refs h
  · cases h

lemma ovEntries_ok_inv {names : List String} {pt : List (String × PType)}
    {kv : List (String × Doc)} {ov : List (String × List (String × PValue))}
    (h : ovEntries names pt kv = .ok ov) :
    ∀ o ∈ ov, o.1 ∈ names ∧ typeOffender pt o.2 = none ∧ o.1 ∈ kv.map Prod.fst := by
  induction kv generalizing ov with
  | nil =>
    injection h with h2
    subst h2
    intro o ho
    cases ho
  | cons hd tl ih =>
    obtain ⟨k, v⟩ := hd
    unfold ovEntries at h
    split at h
    · split at h
      · cases h
      next s hs =>
        split at h
        · cases h
        next hto =>
          split at h
          next l hl =>
            injection h with h2
            subst h2
            intro o ho
            rcases List.mem_cons.mp ho with rfl | hm
            · refine ⟨?_, hto, List.mem_cons_self _ _⟩
              have hc : names.contains k = true := by assumption
              simpa using hc
            · obtain ⟨ha, hb, hc2⟩ := ih hl o hm
              exact ⟨ha, hb, List.mem_cons_of_mem _ hc2⟩
          · cases h
    · cases h

lemma parseParams_ok_inv {od : Option Doc} {names : List String}
    {pt : List (String × PType)} {df : List (String × PValue)}
    {ov : List (String × List (String × PValue))}
    (h : parseParams od names = .ok (pt, df, ov)) :
    typeOffender pt df = none ∧
    (∀ o ∈ ov, o.1 ∈ names ∧ typeOffender pt o.2 = none ∧
      o.1 ≠ "parameter_types" ∧ o.1 ≠ "default") := by
  unfold parseParams at h
  split at h
  · injection h with h2
    injection h2 with ha hb
    injection hb with hb2 hc
    subst ha
    subst hb2
    subst hc
    refine ⟨rfl, ?_⟩
    intro o ho
    cases ho
  · split at h
    · cases h
    next pt0 hpt0 =>
      split at h
      · cases h
      next df0 hdf0 =>
        split at h
        · cases h
        next hto =>
          split at h
          · cases h
          next ov0 hov0 =>
            injection h with h2
            injection h2 with ha hb
            injection hb with hb hc
            subst ha
            subst hb
            subst hc
            refine ⟨hto, ?_⟩
            intro o ho
            obtain ⟨hmem, hnone, hkeys⟩ := ovEntries_ok_inv hov0 o ho
            rcases List.mem_map.mp hkeys with ⟨e, he, hfst⟩
            have hpred := List.of_mem_filter he
            refine ⟨hmem, hnone, ?_, ?_⟩
            · rw [← hfst]
              intro hk
              rw [hk] at hpred
              simp at hpred
            · rw [← hfst]
              intro hk
              rw [hk] at hpred
              simp at hpred
  · cases h

lemma load_ok_inv {d : Doc} {m : SceneManifest} (h : load d = .ok m) :
    SatisfiesInvariants m ∧ LoadShape m := by
  unfold load at h
  split at h
  · cases h
  next hdr hph =>
    split at h
    · cases h
    next figs hfig =>
      split at h
      · cases h
      next pt df ov hpar =>
        split at h
        · cases h
        next res hres =>
          injection h with h2
          subst h2
          obtain ⟨hsn, hfd, hop⟩ := loadPhase1_ok_inv hph
          obtain ⟨hdfok, hovok⟩ := parseParams_ok_inv hpar
          refine ⟨⟨?_, ?_, ?_, ?_, ?_⟩, ⟨hsn, hdfok, ?_, hres⟩⟩
          · exact parseFigures_ok_refs hfig
          · intro o ho
            exact (hovok o ho).1
          · intro o ho pv hpv ty hty
            exact (typeOffender_eq_none_iff _ _).mp (hovok o ho).2.1 pv hpv ty hty
          · exact (checkOpacity_iff _).mp hop
          · exact (findDup_eq_none_iff _).mp hfd
          · intro o ho
            exact ⟨(hovok o ho).2.2.1, (hovok o ho).2.2.2⟩

/-- C8: every manifest returned by `load` satisfies the data-model
invariants: figure groups and parameter overrides reference declared tissue
names only, override values type-check against the declared parameter types,
present opacities lie in the unit interval, and present tissue indices are
pairwise distinct. -/
theorem c8_invariants (d : Doc) (m : SceneManifest) (h : load d = .ok m) :
    SatisfiesInvariants m :=
  (load_ok_inv h).1

/-- C8 witness: the invariants hold for a concrete loaded manifest with a
tissue, a figure group, an override and an opacity. -/
theorem c8_invariants_witness :
    ∃ m, load doc8 = .ok m ∧ SatisfiesInvariants m :=
  ⟨_, rfl, c8_invariants doc8 _ rfl⟩

/-- C7: `load` is all-or-nothing: it returns a complete manifest satisfying
the data-model invariants exactly when it does not return an error of the
taxonomy, and the two outcomes are mutually exclusive. -/
theorem c7_all_or_nothing (d : Doc) :
    (∃ m, load d = .ok m ∧ SatisfiesInvariants m) ↔ ∀ e, load d ≠ .error e := by
  cases hl : load d with
  | ok m =>
    constructor
    · intro _ e he
      exact Except.noConfusion he
    · intro _
      exact ⟨m, rfl, (load_ok_inv hl).1⟩
  | error e =>
    constructor
    · intro hm
      rcases hm with ⟨m, hm, _⟩
      exact Except.noConfusion hm
    · intro hne
      exact absurd rfl (hne e)

/-- C9: loading the minimal manifest succeeds and yields one tissue named
`bone`, no figure groups and an empty resolved parameter table. -/
theorem c9_minimal_manifest :
    ∃ m, load doc9 = .ok m ∧ m.tissues.map Tissue.name = ["bone"] ∧
      m.figures = [] ∧ m.resolved = [] := by
  refine ⟨⟨"t", ["a.mhd"],
    [⟨"bone", none, some (.list [.int 1, .int 1, .int 1]), none, none⟩],
    [], [], [], [], []⟩, ?_, rfl, rfl, rfl⟩
  rfl

lemma resolveValue_eq (df : List (String × PValue))
    (ov : List (String × List (String × PValue))) (n p : String) :
    resolveValue df ov n p =
      match ovLookup ov n p with
      | some v => some v
      | none => List.lookup p df := by
  unfold resolveValue ovLookup
  cases List.lookup n ov with
  | none => rfl
  | some s =>
    cases List.lookup p s with
    | none => rfl
    | some v => rfl

lemma resolveTable_ok_lookup {df : List (String × PValue)}
    {ov : List (String × List (String × PValue))} {n : String}
    {pt : List (String × PType)} {tbl : List (String × PValue)}
    (h : resolveTable df ov n pt = .ok tbl) {p : String} {ty : PType}
    (hm : (p, ty) ∈ pt) :
    ∃ v, List.lookup p tbl = some v ∧ resolveValue df ov n p = some v := by
  induction pt generalizing tbl with
  | nil => cases hm
  | cons hd rest ih =>
    obtain ⟨q, tyq⟩ := hd
    unfold resolveTable at h
    split at h
    next v hv =>
      split at h
      next l hl =>
        injection h with h2
        subst h2
        by_cases hpq : p = q
        · subst hpq
          refine ⟨v, ?_, hv⟩
          simp [List.lookup]
        · have hm2 : (p, ty) ∈ rest := by
            rcases List.mem_cons.mp hm with heq | hm2
            · injection heq with h1 _
              exact absurd h1 hpq
            · exact hm2
          obtain ⟨v2, hv2, hrv⟩ := ih hl hm2
          have hbeq : (p == q) = false := beq_eq_false_iff_ne.mpr hpq
          refine ⟨v2, ?_, hrv⟩
          simp [List.lookup, hbeq, hv2]
      · cases h
    · cases h

lemma resolveTables_ok_lookup {df : List (String × PValue)}
    {ov : List (String × List (String × PValue))}
    {pt : List (String × PType)} {names : List String}
    {res : List (String × List (String × PValue))}
    (h : resolveTables df ov pt names = .ok res) {n : String} (hn : n ∈ names) :
    ∃ tbl, List.lookup n res = some tbl ∧ resolveTable df ov n pt = .ok tbl := by
  induction names generalizing res with
  | nil => cases hn
  | cons n0 rest ih =>
    unfold resolveTables at h
    split at h
    · cases h
    next tbl0 htbl0 =>
      split at h
      next l hl =>
        injection h with h2
        subst h2
        by_cases hnn : n = n0
        · subst hnn
          exact ⟨tbl0, by simp [List.lookup], htbl0⟩
        · have hn2 : n ∈ rest := by
            rcases List.mem_cons.mp hn with rfl | h2
            · exact absurd rfl hnn
            · exact h2
          obtain ⟨tbl, ha, hb⟩ := ih hl hn2
          have hbeq : (n == n0) = false := beq_eq_false_iff_ne.mpr hnn
          exact ⟨tbl, by simp [List.lookup, hbeq, ha], hb⟩
      · cases h

lemma resolveTable_error_of_missing {df : List (String × PValue)}
    {ov : List (String × List (String × PValue))} {n : String}
    {pt : List (String × PType)} {p : String} {ty : PType}
    (hm : (p, ty) ∈ pt) (hv : resolveValue df ov n p = none) :
    ∃ q, resolveTable df ov n pt = .error (.MissingParameterValue q) := by
  induction pt with
  | nil => cases hm
  | cons hd rest ih =>
    obtain ⟨q0, ty0⟩ := hd
    cases hv0 : resolveValue df ov n q0 with
    | none => exact ⟨q0, by simp [resolveTable, hv0]⟩
    | some v =>
      have hm2 : (p, ty) ∈ rest := by
        rcases List.mem_cons.mp hm with heq | h2
        · injection heq with h1 _
          subst h1
          rw [hv0] at hv
          cases hv
        · exact h2
      obtain ⟨q, hq⟩ := ih hm2
      refine ⟨q, ?_⟩
      simp [resolveTable, hv0, hq]

lemma resolveTable_error_shape {df : List (String × PValue)}
    {ov : List (String × List (String × PValue))} {n : String}
    {pt : List (String × PType)} {e : ParseError}
    (h : resolveTable df ov n pt = .error e) :
    ∃ q, e = .MissingParameterValue q := by
  induction pt generalizing e with
  | nil => exact Except.noConfusion h
  | cons hd rest ih =>
    obtain ⟨q0, ty0⟩ := hd
    unfold resolveTable at h
    split at h
    · split at h
      · exact Except.noConfusion h
      next e2 he2 =>
        injection h with h2
        subst h2
        exact ih he2
    · injection h with h2
      subst h2
      exact ⟨q0, rfl⟩

lemma resolveTables_error_of {df : List (String × PValue)}
    {ov : List (String × List (String × PValue))}
    {pt : List (String × PType)} {names : List String} {n : String}
    {e : ParseError}
    (hn : n ∈ names) (he : resolveTable df ov n pt = .error e) :
    ∃ e2, resolveTables df ov pt names = .error e2 := by
  induction names with
  | nil => cases hn
  | cons n0 rest ih =>
    cases h0 : resolveTable df ov n0 pt with
    | error e0 => exact ⟨e0, by simp [resolveTables, h0]⟩
    | ok tbl =>
      have hn2 : n ∈ rest := by
        rcases List.mem_cons.mp hn with rfl | h2
        · rw [h0] at he
          cases he
        · exact h2
      obtain ⟨e2, he2⟩ := ih hn2
      refine ⟨e2, ?_⟩
      simp [resolveTables, h0, he2]

lemma resolveTables_error_shape {df : List (String × PValue)}
    {ov : List (String × List (String × PValue))}
    {pt : List (String × PType)} {names : List String} {e : ParseError}
    (h : resolveTables df ov pt names = .error e) :
    ∃ q, e = .MissingParameterValue q := by
  induction names generalizing e with
  | nil => exact Except.noConfusion h
  | cons n0 rest ih =>
    unfold resolveTables at h
    split at h
    next e0 he0 =>
      injection h with h2
      subst h2
      exact resolveTable_error_shape he0
    next tbl htbl =>
      split at h
      · exact Except.noConfusion h
      next e2 he2 =>
        injection h with h2
        subst h2
        exact ih he2

lemma resolveAll_ok_to_tables {names : List String} {pt : List (String × PType)}
    {df : List (String × PValue)} {ov res : List (String × List (String × PValue))}
    (h : resolveAll names pt df ov = .ok res) {p : String} {ty : PType}
    (hp : (p, ty) ∈ pt) : resolveTables df ov pt names = .ok res := by
  cases pt with
  | nil => cases hp
  | cons a rest => exact h

/-- C2: in every loaded manifest the resolved table of each tissue maps each
declared parameter to the tissue's override value when present, otherwise to
the `default` value; and for every document reaching the resolution phase, a
declared parameter absent from both a tissue's override and the `default`
set makes `load` fail with `MissingParameterValue`. -/
theorem c2_parameter_resolution :
    (∀ (d : Doc) (m : SceneManifest) (t : Tissue) (p : String) (ty : PType),
      load d = .ok m → t ∈ m.tissues → (p, ty) ∈ m.paramTypes →
      ∃ tbl v, List.lookup t.name m.resolved = some tbl ∧
        List.lookup p tbl = some v ∧
        (ovLookup m.overrides t.name p = some v ∨
         (ovLookup m.overrides t.name p = none ∧
          List.lookup p m.defaults = some v))) ∧
    (∀ (d : Doc) (h : ManifestHeader) (figs : List (String × List String))
       (pt : List (String × PType)) (df : List (String × PValue))
       (ov : List (String × List (String × PValue)))
       (t : Tissue) (p : String) (ty : PType),
      loadPhase1 d = .ok h →
      parseFigures (topLookup d "figures") (h.tissues.map Tissue.name) = .ok figs →
      parseParams (topLookup d "tissue_parameters") (h.tissues.map Tissue.name)
        = .ok (pt, df, ov) →
      t ∈ h.tissues → (p, ty) ∈ pt →
      ovLookup ov t.name p = none → List.lookup p df = none →
      ∃ q, load d = .error (.MissingParameterValue q)) := by
  constructor
  · intro d m t p ty hl ht hp
    obtain ⟨-, -, -, hres⟩ := (load_ok_inv hl).2
    have htabs := resolveAll_ok_to_tables hres hp
    have hnm : t.name ∈ m.tissues.map Tissue.name := List.mem_map_of_mem _ ht
    obtain ⟨tbl, hlk, htbl⟩ := resolveTables_ok_lookup htabs hnm
    obtain ⟨v, hpv, hrv⟩ := resolveTable_ok_lookup htbl hp
    refine ⟨tbl, v, hlk, hpv, ?_⟩
    rw [resolveValue_eq] at hrv
    cases ho : ovLookup m.overrides t.name p with
    | some w =>
      rw [ho] at hrv
      injection hrv with h2
      subst h2
      exact Or.inl rfl
    | none =>
      rw [ho] at hrv
      exact Or.inr ⟨rfl, hrv⟩
  · intro d h figs pt df ov t p ty hph hfig hpar ht hp hov hdf
    have hrv : resolveValue df ov t.name p = none := by
      rw [resolveValue_eq, hov]
      exact hdf
    obtain ⟨q0, htberr⟩ := resolveTable_error_of_missing hp hrv
    have hnm : t.name ∈ h.tissues.map Tissue.name := List.mem_map_of_mem _ ht
    obtain ⟨e2, htabs⟩ := resolveTables_error_of hnm htberr
    obtain ⟨q, rfl⟩ := resolveTables_error_shape htabs
    refine ⟨q, ?_⟩
    have hra : resolveAll (h.tissues.map Tissue.name) pt df ov
        = .error (.MissingParameterValue q) := by
      cases pt with
      | nil => cases hp
      | cons a rest => exact htabs
    simp [load, hph, hfig, hpar, hra]

/-- C2 witness: the spec example: `default = {density: 1.0}`, no override
for tissue `skin`, so `skin` resolves `density` to 1.0; and with an empty
`default` and no override, `load` fails with `MissingParameterValue`. -/
theorem c2_parameter_resolution_witness :
    (∃ tbl v, List.lookup "skin" [("skin", [("density", PValue.pFloat 1)])] = some tbl ∧
      List.lookup "density" tbl = some v ∧
      (ovLookup [] "skin" "density" = some v ∨
       (ovLookup [] "skin" "density" = none ∧
        List.lookup "density" [("density", PValue.pFloat 1)] = some v))) ∧
    (∃ q, load (.map [("title", .str "t"), ("files", .list []),
      ("tissues", .map [("names", .list [.str "skin"])]),
      ("tissue_parameters", .map
        [("parameter_types", .map [("density", .str "float")])])])
      = .error (.MissingParameterValue q)) := by
  constructor
  · exact c2_parameter_resolution.1
      (.map [("title", .str "t"), ("files", .list []),
        ("tissues", .map [("names", .list [.str "skin"])]),
        ("tissue_parameters", .map
          [("parameter_types", .map [("density", .str "float")]),
           ("default", .map [("density", .float 1)])])])
      ⟨"t", [], [⟨"skin", none, none, none, none⟩], [],
        [("density", .tFloat)], [("density", .pFloat 1)], [],
        [("skin", [("density", .pFloat 1)])]⟩
      ⟨"skin", none, none, none, none⟩ "density" .tFloat rfl
      (List.mem_cons_self _ _) (List.mem_cons_self _ _)
  · exact c2_parameter_resolution.2
      (.map [("title", .str "t"), ("files", .list []),
        ("tissues", .map [("names", .list [.str "skin"])]),
        ("tissue_parameters", .map
          [("parameter_types", .map [("density", .str "float")])])])
      ⟨"t", [], [⟨"skin", none, none, none, none⟩]⟩ []
      [("density", .tFloat)] [] []
      ⟨"skin", none, none, none, none⟩ "density" .tFloat
      rfl rfl rfl (List.mem_cons_self _ _) (List.mem_cons_self _ _) rfl rfl

lemma pvalOf_pvalDoc (v : PValue) : pvalOf (pvalDoc v) = some v := by
  cases v <;> rfl

lemma psetEntries_roundtrip (s : List (String × PValue)) :
    psetEntries (s.map (fun p => (p.1, pvalDoc p.2))) = .ok s := by
  induction s with
  | nil => rfl
  | cons hd tl ih =>
    obtain ⟨k, v⟩ := hd
    simp [psetEntries, pvalOf_pvalDoc, ih]

lemma parsePSet_psetDoc (s : List (String × PValue)) :
    parsePSet (psetDoc s) = .ok s := by
  unfold psetDoc parsePSet
  exact psetEntries_roundtrip s

lemma strList_roundtrip (l : List String) : strList (l.map Doc.str) = .ok l := by
  induction l with
  | nil => rfl
  | cons hd tl ih => simp [strList, ih]

lemma asStrList_roundtrip (l : List String) :
    asStrList (.list (l.map Doc.str)) = .ok l := by
  unfold asStrList
  exact strList_roundtrip l

lemma ptypeOfName_typeNameOf (ty : PType) :
    ptypeOfName (typeNameOf ty) = some ty := by
  cases ty <;> rfl

lemma ptypeEntries_roundtrip (pt : List (String × PType)) :
    ptypeEntries (pt.map (fun p => (p.1, Doc.str (typeNameOf p.2)))) = .ok pt := by
  induction pt with
  | nil => rfl
  | cons hd tl ih =>
    obtain ⟨k, ty⟩ := hd
    simp [ptypeEntries, ptypeOfName_typeNameOf, ih]

lemma intEntries_roundtrip (l : List (String × Int)) :
    intEntries (l.map (fun p => (p.1, Doc.int p.2))) = .ok l := by
  induction l with
  | nil => rfl
  | cons hd tl ih =>
    obtain ⟨k, n⟩ := hd
    simp [intEntries, ih]

lemma numEntries_roundtrip (l : List (String × ℚ)) :
    numEntries (l.map (fun p => (p.1, Doc.float p.2))) = .ok l := by
  induction l with
  | nil => rfl
  | cons hd tl ih =>
    obtain ⟨k, q⟩ := hd
    simp [numEntries, asNum, ih]

lemma filterMap_entry_map {β γ : Type} (ts : List Tissue) (g : Tissue → Option β)
    (f : β → γ) :
    ts.filterMap (fun t => (g t).map (fun x => (t.name, f x)))
      = (ts.filterMap (fun t => (g t).map (fun x => (t.name, x)))).map
          (fun p => (p.1, f p.2)) := by
  induction ts with
  | nil => rfl
  | cons hd tl ih =>
    cases hg : g hd with
    | none => simp [List.filterMap_cons, hg, ih]
    | some b => simp [List.filterMap_cons, hg, ih]

lemma lookup_field_none {β : Type} (ts : List Tissue) (g : Tissue → Option β)
    (n : String) (h : ∀ u ∈ ts, u.name = n → g u = none) :
    List.lookup n (ts.filterMap (fun t => (g t).map (fun x => (t.name, x)))) = none := by
  induction ts with
  | nil => rfl
  | cons hd tl ih =>
    cases hg : g hd with
    | none =>
      simp only [List.filterMap_cons, hg, Option.map_none]
      exact ih (fun u hu => h u (List.mem_cons_of_mem _ hu))
    | some b =>
      simp only [List.filterMap_cons, hg, Option.map_some]
      have hne : hd.name ≠ n := by
        intro hcontra
        rw [h hd (List.mem_cons_self _ _) hcontra] at hg
        cases hg
      have hbeq : (n == hd.name) = false :=
        beq_eq_false_iff_ne.mpr (fun hc => hne hc.symm)
      simp only [List.lookup, hbeq]
      exact ih (fun u hu => h u (List.mem_cons_of_mem _ hu))

lemma lookup_field {β : Type} (ts : List Tissue) (g : Tissue → Option β)
    (hsn : ∀ a ∈ ts, ∀ b ∈ ts, a.name = b.name → a = b)
    (t : Tissue) (ht : t ∈ ts) :
    List.lookup t.name (ts.filterMap (fun s => (g s).map (fun x => (s.name, x)))) = g t := by
  induction ts with
  | nil => cases ht
  | cons hd tl ih =>
    by_cases hname : t.name = hd.name
    · have hteq : t = hd :=
        hsn t ht hd (List.mem_cons_self _ _) hname
      subst hteq
      cases hg : g t with
      | some b =>
        simp only [List.filterMap_cons, hg, Option.map_some]
        simp [List.lookup]
      | none =>
        simp only [List.filterMap_cons, hg, Option.map_none]
        exact lookup_field_none tl g t.name (fun u hu hun => by
          have hueq : u = t :=
            hsn u (List.mem_cons_of_mem _ hu) t (List.mem_cons_self _ _) hun
          rw [hueq]
          exact hg)
    · have htl : t ∈ tl := by
        rcases List.mem_cons.mp ht with rfl | h2
        · exact absurd rfl hname
        · exact h2
      have hsn2 : ∀ a ∈ tl, ∀ b ∈ tl, a.name = b.name → a = b := fun a ha b hb =>
        hsn a (List.mem_cons_of_mem _ ha) b (List.mem_cons_of_mem _ hb)
      cases hg : g hd with
      | none =>
        simp only [List.filterMap_cons, hg, Option.map_none]
        exact ih hsn2 htl
      | some b =>
        simp only [List.filterMap_cons, hg, Option.map_some]
        have hbeq : (t.name == hd.name) = false := beq_eq_false_iff_ne.mpr hname
        simp only [List.lookup, hbeq]
        exact ih hsn2 htl

lemma map_name_rebuild (ts : List Tissue) (F : String → Tissue)
    (h : ∀ t ∈ ts, F t.name = t) : (ts.map Tissue.name).map F = ts := by
  induction ts with
  | nil => rfl
  | cons hd tl ih =>
    simp only [List.map_cons]
    rw [h hd (List.mem_cons_self _ _), ih (fun t ht => h t (List.mem_cons_of_mem _ ht))]

lemma serializeTissues_roundtrip (ts : List Tissue)
    (hsn : ∀ a ∈ ts, ∀ b ∈ ts, a.name = b.name → a = b) :
    parseTissuesRaw (some (serializeTissues ts)) = .ok ts := by
  have hnames : tissueNames (tissuesEntries ts) = .ok (ts.map Tissue.name) := by
    rw [show tissueNames (tissuesEntries ts) = asStrList (namesEntry ts) from rfl]
    rw [show namesEntry ts = Doc.list ((ts.map Tissue.name).map Doc.str) from by
      simp [namesEntry, List.map_map, Function.comp]]
    exact asStrList_roundtrip _
  have hidx : intMapOpt (List.lookup "indices" (tissuesEntries ts))
      = .ok (ts.filterMap (fun t => t.index.map (fun x => (t.name, x)))) := by
    rw [show List.lookup "indices" (tissuesEntries ts)
        = some (Doc.map (indexEntries ts)) from rfl]
    rw [show intMapOpt (some (Doc.map (indexEntries ts)))
        = intEntries (indexEntries ts) from rfl]
    rw [show indexEntries ts
        = ts.filterMap (fun t => t.index.map (fun x => (t.name, Doc.int x))) from rfl]
    rw [filterMap_entry_map ts Tissue.index Doc.int]
    exact intEntries_roundtrip _
  have hcol : docMapOpt (List.lookup "colors" (tissuesEntries ts))
      = .ok (ts.filterMap (fun t => t.color.map (fun x => (t.name, x)))) := rfl
  have hori : docMapOpt (List.lookup "orientation" (tissuesEntries ts))
      = .ok (ts.filterMap (fun t => t.orientation.map (fun x => (t.name, x)))) := rfl
  have hops : numMapOpt (List.lookup "opacity" (tissuesEntries ts))
      = .ok (ts.filterMap (fun t => t.opacity.map (fun x => (t.name, x)))) := by
    rw [show List.lookup "opacity" (tissuesEntries ts)
        = some (Doc.map (opacityEntries ts)) from rfl]
    rw [show numMapOpt (some (Doc.map (opacityEntries ts)))
        = numEntries (opacityEntries ts) from rfl]
    rw [show opacityEntries ts
        = ts.filterMap (fun t => t.opacity.map (fun x => (t.name, Doc.float x))) from rfl]
    rw [filterMap_entry_map ts Tissue.opacity Doc.float]
    exact numEntries_roundtrip _
  rw [show serializeTissues ts = Doc.map (tissuesEntries ts) from rfl]
  simp only [parseTissuesRaw, hnames, hidx, hcol, hori, hops]
  have hfun : ∀ t ∈ ts,
      (⟨t.name,
        List.lookup t.name (ts.filterMap (fun s => s.index.map (fun x => (s.name, x)))),
        List.lookup t.name (ts.filterMap (fun s => s.color.map (fun x => (s.name, x)))),
        List.lookup t.name (ts.filterMap (fun s => s.orientation.map (fun x => (s.name, x)))),
        List.lookup t.name (ts.filterMap (fun s => s.opacity.map (fun x => (s.name, x))))⟩
        : Tissue) = t := by
    intro t ht
    rw [lookup_field ts Tissue.index hsn t ht, lookup_field ts Tissue.color hsn t ht,
        lookup_field ts Tissue.orientation hsn t ht, lookup_field ts Tissue.opacity hsn t ht]
  rw [map_name_rebuild ts _ (fun t ht => hfun t ht)]

lemma figEntries_roundtrip (names : List String) (figs : List (String × List String))
    (href : ∀ f ∈ figs, ∀ n ∈ f.2, n ∈ names) :
    figEntries names (figs.map (fun f => (f.1, Doc.list (f.2.map Doc.str)))) = .ok figs := by
  induction figs with
  | nil => rfl
  | cons hd tl ih =>
    obtain ⟨g, ts⟩ := hd
    have h1 : asStrList (Doc.list (ts.map Doc.str)) = .ok ts := asStrList_roundtrip ts
    have h2 : ts.find? (fun n => !(names.contains n)) = none := by
      rw [List.find?_eq_none]
      intro n hn
      have hmem : n ∈ names := href (g, ts) (List.mem_cons_self _ _) n hn
      simp [hmem]
    simp only [List.map_cons, figEntries, h1, h2,
      ih (fun f hf => href f (List.mem_cons_of_mem _ hf))]

lemma parseFigures_roundtrip (names : List String)
    (figs : List (String × List String))
    (href : ∀ f ∈ figs, ∀ n ∈ f.2, n ∈ names) :
    parseFigures (some (.map (figs.map (fun f => (f.1, Doc.list (f.2.map Doc.str)))))) names
      = .ok figs :=
  figEntries_roundtrip names figs href

lemma ovEntries_roundtrip (names : List String) (pt : List (String × PType))
    (ov : List (String × List (String × PValue)))
    (href : ∀ o ∈ ov, o.1 ∈ names)
    (htc : ∀ o ∈ ov, typeOffender pt o.2 = none) :
    ovEntries names pt (ov.map (fun o => (o.1, psetDoc o.2))) = .ok ov := by
  induction ov with
  | nil => rfl
  | cons hd tl ih =>
    obtain ⟨k, sv⟩ := hd
    have hmem : k ∈ names := href (k, sv) (List.mem_cons_self _ _)
    have h1 : parsePSet (psetDoc sv) = .ok sv := parsePSet_psetDoc sv
    have h2 : typeOffender pt sv = none := htc (k, sv) (List.mem_cons_self _ _)
    have h3 := ih (fun o ho => href o (List.mem_cons_of_mem _ ho))
      (fun o ho => htc o (List.mem_cons_of_mem _ ho))
    simp [ovEntries, hmem, h1, h2, h3]

lemma parseParams_serialize (m : SceneManifest) (names : List String)
    (href : ∀ o ∈ m.overrides, o.1 ∈ names)
    (htc : ∀ o ∈ m.overrides, typeOffender m.paramTypes o.2 = none)
    (hresv : ∀ o ∈ m.overrides, o.1 ≠ "parameter_types" ∧ o.1 ≠ "default")
    (hdf : typeOffender m.paramTypes m.defaults = none) :
    parseParams (some (serializeParams m)) names
      = .ok (m.paramTypes, m.defaults, m.overrides) := by
  have hpt : ptypesOpt (List.lookup "parameter_types" (paramsEntries m))
      = .ok m.paramTypes := by
    rw [show List.lookup "parameter_types" (paramsEntries m)
        = some (Doc.map (m.paramTypes.map (fun p => (p.1, Doc.str (typeNameOf p.2)))))
        from rfl]
    exact ptypeEntries_roundtrip m.paramTypes
  have hdfl : defaultsOpt (List.lookup "default" (paramsEntries m))
      = .ok m.defaults := by
    rw [show List.lookup "default" (paramsEntries m) = some (psetDoc m.defaults) from rfl]
    exact parsePSet_psetDoc m.defaults
  have hfil : (paramsEntries m).filter
      (fun p => !(p.1 == "parameter_types") && !(p.1 == "default"))
      = m.overrides.map (fun o => (o.1, psetDoc o.2)) := by
    rw [show (paramsEntries m).filter
          (fun p => !(p.1 == "parameter_types") && !(p.1 == "default"))
        = (m.overrides.map (fun o => (o.1, psetDoc o.2))).filter
            (fun p => !(p.1 == "parameter_types") && !(p.1 == "default")) from rfl]
    apply List.filter_eq_self.mpr
    intro a ha
    rcases List.mem_map.mp ha with ⟨o, ho, rfl⟩
    obtain ⟨h1k, h2k⟩ := hresv o ho
    simp [beq_eq_false_iff_ne.mpr h1k, beq_eq_false_iff_ne.mpr h2k]
  rw [show serializeParams m = Doc.map (paramsEntries m) from rfl]
  simp only [parseParams, hpt, hdfl, hdf, hfil,
    ovEntries_roundtrip names m.paramTypes m.overrides href htc]

lemma loadPhase1_serialize (m : SceneManifest)
    (hsn : ∀ a ∈ m.tissues, ∀ b ∈ m.tissues, a.name = b.name → a = b)
    (hfd : findDup (m.tissues.filterMap Tissue.index) = none)
    (hop : checkOpacity m.tissues = true) :
    loadPhase1 (serialize m) = .ok ⟨m.title, m.files, m.tissues⟩ := by
  have h1 : List.lookup "title" (serializeEntries m) = some (.str m.title) := rfl
  have h2 : List.lookup "files" (serializeEntries m)
      = some (.list (m.files.map Doc.str)) := rfl
  have h3 : List.lookup "tissues" (serializeEntries m)
      = some (serializeTissues m.tissues) := rfl
  rw [show serialize m = Doc.map (serializeEntries m) from rfl]
  simp only [loadPhase1, h1, h2, h3, asStr, asStrList_roundtrip,
    serializeTissues_roundtrip m.tissues hsn, hfd, hop, if_true]

lemma load_serialize (m : SceneManifest)
    (hw : SatisfiesInvariants m) (hs : LoadShape m) :
    load (serialize m) = .ok m := by
  obtain ⟨hfigref, hovref, hovtc, hopac, hnodup⟩ := hw
  obtain ⟨hsn, hdfok, hreserved, hres⟩ := hs
  have hfd : findDup (m.tissues.filterMap Tissue.index) = none :=
    (findDup_eq_none_iff _).mpr hnodup
  have hop : checkOpacity m.tissues = true := (checkOpacity_iff _).mpr hopac
  have hph : loadPhase1 (serialize m) = .ok ⟨m.title, m.files, m.tissues⟩ :=
    loadPhase1_serialize m hsn hfd hop
  have hfig : parseFigures (topLookup (serialize m) "figures")
      (m.tissues.map Tissue.name) = .ok m.figures := by
    rw [show topLookup (serialize m) "figures"
        = some (Doc.map (m.figures.map (fun f => (f.1, Doc.list (f.2.map Doc.str)))))
        from rfl]
    exact parseFigures_roundtrip _ _ hfigref
  have htc2 : ∀ o ∈ m.overrides, typeOffender m.paramTypes o.2 = none := by
    intro o ho
    rw [typeOffender_eq_none_iff]
    exact fun pv hpv ty hty => hovtc o ho pv hpv ty hty
  by_cases hemp : m.paramTypes = [] ∧ m.defaults = [] ∧ m.overrides = []
  · obtain ⟨hpt0, hdf0, hov0⟩ := hemp
    have htp : topLookup (serialize m) "tissue_parameters" = none := by
      rw [show topLookup (serialize m) "tissue_parameters"
          = List.lookup "tissue_parameters" (serializeEntries m) from rfl]
      simp [serializeEntries, List.lookup, hpt0, hdf0, hov0]
    have hres2 := hres
    rw [hpt0] at hres2
    simp only [resolveAll] at hres2
    have hres0 : m.resolved = [] := by
      injection hres2 with hh
      exact hh.symm
    simp only [load, hph, hfig, htp, parseParams, resolveAll]
    have hm : m = ⟨m.title, m.files, m.tissues, m.figures, [], [], [], []⟩ := by
      rw [show (⟨m.title, m.files, m.tissues, m.figures, [], [], [], []⟩ : SceneManifest)
          = ⟨m.title, m.files, m.tissues, m.figures, m.paramTypes, m.defaults,
             m.overrides, m.resolved⟩ from by rw [hpt0, hdf0, hov0, hres0]]
    conv_rhs => rw [hm]
  · have htp : topLookup (serialize m) "tissue_parameters"
        = some (serializeParams m) := by
      rw [show topLookup (serialize m) "tissue_parameters"
          = List.lookup "tissue_parameters" (serializeEntries m) from rfl]
      simp [serializeEntries, List.lookup, hemp]
    have hpar : parseParams (topLookup (serialize m) "tissue_parameters")
        (m.tissues.map Tissue.name) = .ok (m.paramTypes, m.defaults, m.overrides) := by
      rw [htp]
      exact parseParams_serialize m _ hovref htc2 hreserved hdfok
    simp only [load, hph, hfig, hpar, hres]

/-- C1: a manifest obtained from a successful `load`, re-serialized and
re-loaded, loads to the same manifest (round-trip idempotence after one
load/serialize cycle). -/
theorem c1_roundtrip (d : Doc) (m : SceneManifest) (h : load d = .ok m) :
    load (serialize m) = .ok m :=
  load_serialize m (load_ok_inv h).1 (load_ok_inv h).2

/-- C1 witness: a concrete rich manifest loads, and its serialization
re-loads to the same manifest. -/
theorem c1_roundtrip_witness :
    ∃ m, load doc1 = .ok m ∧ load (serialize m) = .ok m := by
  refine ⟨_, rfl, ?_⟩
  exact c1_roundtrip doc1 _ rfl

end Manifest

namespace OffScreen

/-- C10: the `OffScreenRendering` example ignores its command-line arguments,
performs the off-screen-only factory call and the off-screen render-window
call before its only `Render` call, sets the writer file name to
`screenshot.png` before writing, and returns `EXIT_SUCCESS` (0). -/
theorem c10_offscreen_main (argc argc2 : Int) (argv argv2 : List String) :
    offScreenMain argc argv = offScreenMain argc2 argv2 ∧
    (offScreenMain argc argv).2 = 0 ∧
    (∃ i j k : Nat, i < k ∧ j < k ∧
      (offScreenMain argc argv).1[i]? = some (VtkEvent.setOffScreenOnlyMode 1) ∧
      (offScreenMain argc argv).1[j]? = some (VtkEvent.setOffScreenRendering 1) ∧
      (offScreenMain argc argv).1[k]? = some VtkEvent.render ∧
      ∀ k2 < k, (offScreenMain argc argv).1[k2]? ≠ some VtkEvent.render) ∧
    (∃ a b : Nat, a < b ∧
      (offScreenMain argc argv).1[a]? = some (VtkEvent.writerSetFileName "screenshot.png") ∧
      (offScreenMain argc argv).1[b]? = some VtkEvent.writerWrite) := by
  refine ⟨rfl, rfl, ⟨0, 4, 8, ?_, ?_, rfl, rfl, rfl, ?_⟩, ⟨11, 13, ?_, rfl, rfl⟩⟩
  · decide
  · decide
  · simp only [offScreenMain]
    decide
  · decide

end OffScreen
